import Mathlib

/-!
Verification of the hospital appointment system (data store, worker agents,
master agent intent routing) against its natural-language specification.

The development shallowly embeds the Python source:

* `DataStore` holds patients, doctors and appointments as lists (the Python
  dicts are insertion ordered; iteration order is list order, and all claims
  are invariant under the well-formedness condition that ids are unique).
* Wall-clock values (`datetime.now()`, `date.today()`) are explicit
  parameters (`now : PyDateTime`, `today : PyDate`).
* Dates and times are the stored strings; `strptime`-based parsing and
  comparison is embedded by `parseDate` / `parseTimeHM` (format
  `%Y-%m-%d` / `%H:%M`, with CPython's 1-2 digit month/day/hour/minute
  leniency and range validation).
* File persistence (`_save_data`) and the `created_at` / `updated_at` /
  `cancelled_at` wall-clock metadata fields are I/O and are not modelled;
  no claim mentions them.
* Legacy integer patient ids (the `old_id` migration cross-reference) are
  outside the model: every claim concerns token (string) patient ids, for
  which the Python comparison `apt['patient_id'] == old_patient_id` is
  between a string and `None`/an int and is always false.
* Worker results are structured values: one constructor per `return` site
  of the source, carrying the data interpolated into the English message.
-/

/-! ## Python string primitives -/

/-- Python whitespace for `str.strip` and the regex class `\s`. -/
def pyIsSpace (c : Char) : Bool :=
  c == ' ' || c == '\t' || c == '\n' || c == '\r' || c == '\x0b' || c == '\x0c'

/-- Embeds `str.strip()`: remove leading and trailing whitespace. -/
def pyStrip (s : String) : String :=
  ⟨(((s.toList.dropWhile pyIsSpace).reverse).dropWhile pyIsSpace).reverse⟩

/-- Embeds `str.lower()` (ASCII, which is all the source ever compares). -/
def pyLower (s : String) : String := ⟨s.toList.map Char.toLower⟩

/-- Code-point comparison of character lists, as Python compares strings. -/
def lexLe : List Char → List Char → Bool
  | [], _ => true
  | _ :: _, [] => false
  | a :: as, b :: bs =>
    if a.toNat < b.toNat then true
    else if b.toNat < a.toNat then false
    else lexLe as bs

/-- Python `a <= b` on strings. -/
def strLeB (a b : String) : Bool := lexLe a.toList b.toList

/-- Python `a >= b` on strings. -/
def strGeB (a b : String) : Bool := strLeB b a

/-- Substring search on character lists (Python's `needle in hay`). -/
def subSearch (n : List Char) : List Char → Bool
  | [] => n.isPrefixOf []
  | c :: t => n.isPrefixOf (c :: t) || subSearch n t

/-- Python `needle in hay` for strings. -/
def strContains (hay needle : String) : Bool := subSearch needle.toList hay.toList

/-- Python truthiness of an optional string: `None` and `""` are falsy.
`truthyOpt x = some s` exactly when `x` holds the truthy string `s`. -/
def truthyOpt : Option String → Option String
  | none => none
  | some s => if s = "" then none else some s

/-- Python `a or b` on optional strings (`dict.get` results). -/
def pyOr (a b : Option String) : Option String :=
  match a with
  | none => b
  | some s => if s = "" then b else some s

/-! ## Digits and zero-padded formatting -/

/-- Numeric value of a digit list (caller guarantees all digits). -/
def digitsToNat (cs : List Char) : Nat :=
  cs.foldl (fun n c => n * 10 + (c.toNat - '0'.toNat)) 0

/-- Splitting on a separator character (Python `str.split(sep)` /
`strptime` field separation), kernel-reducible structural recursion. -/
def splitOnChar (sep : Char) : List Char → List (List Char)
  | [] => [[]]
  | c :: t =>
    if c == sep then [] :: splitOnChar sep t
    else
      match splitOnChar sep t with
      | h :: t2 => (c :: h) :: t2
      | [] => [[c]]

/-- A non-empty run of ASCII digits, at most `k` characters long. -/
def isDigits1to (k : Nat) (cs : List Char) : Bool :=
  cs.all Char.isDigit && decide (1 ≤ cs.length) && decide (cs.length ≤ k)

/-- Embeds `%02d` formatting. -/
def pad2 (n : Nat) : String := if n < 10 then "0" ++ toString n else toString n

/-- Embeds `%Y` (4-digit zero-padded year) formatting. -/
def pad4 (n : Nat) : String :=
  if n < 10 then "000" ++ toString n
  else if n < 100 then "00" ++ toString n
  else if n < 1000 then "0" ++ toString n
  else toString n

/-! ## Calendar dates and wall-clock datetimes -/

/-- A calendar date (`datetime.date`). -/
structure PyDate where
  year : Nat
  month : Nat
  day : Nat
deriving DecidableEq, Repr

/-- A wall-clock instant at minute resolution (`datetime.datetime` as the
source uses it: `%Y-%m-%d %H:%M`). -/
structure PyDateTime where
  date : PyDate
  hour : Nat
  minute : Nat
deriving DecidableEq, Repr

/-- Injective key for chronological comparison of parsed dates
(month < 13 and day < 32 for every parsed date). -/
def dateKey (d : PyDate) : Nat := (d.year * 13 + d.month) * 32 + d.day

/-- Embeds `d1 < d2` on dates, as `datetime.date` comparison. -/
def dateLtB (d1 d2 : PyDate) : Bool := dateKey d1 < dateKey d2

/-- Injective key for chronological comparison of parsed datetimes. -/
def dtKey (t : PyDateTime) : Nat := (dateKey t.date * 24 + t.hour) * 60 + t.minute

/-- Embeds `t1 < t2` on datetimes, as `datetime.datetime` comparison. -/
def dtLtB (t1 t2 : PyDateTime) : Bool := dtKey t1 < dtKey t2

def isLeapYear (y : Nat) : Bool :=
  (y % 4 == 0 && y % 100 != 0) || y % 400 == 0

def daysInMonth (y m : Nat) : Nat :=
  if m == 2 then (if isLeapYear y then 29 else 28)
  else if m == 4 || m == 6 || m == 9 || m == 11 then 30
  else 31

/-- Embeds `datetime.strptime(s, '%Y-%m-%d')`: exactly three `-`-separated fields,
a 4-digit year (CPython's `%Y` pattern is `\d\d\d\d`, and `datetime`
requires year ≥ 1), a 1-2 digit month in 1..12, a 1-2 digit day valid for
the month. -/
def parseDate (s : String) : Option PyDate :=
  match splitOnChar '-' s.toList with
  | [ys, ms, ds] =>
    if ys.all Char.isDigit && decide (ys.length = 4)
        && isDigits1to 2 ms && isDigits1to 2 ds then
      let y := digitsToNat ys
      let m := digitsToNat ms
      let d := digitsToNat ds
      if 1 ≤ y && 1 ≤ m && m ≤ 12 && 1 ≤ d && d ≤ daysInMonth y m then
        some ⟨y, m, d⟩
      else none
    else none
  | _ => none

/-- Embeds `strptime` on `'%H:%M'`: 1-2 digit hour ≤ 23, 1-2 digit minute ≤ 59. -/
def parseTimeHM (s : String) : Option (Nat × Nat) :=
  match splitOnChar ':' s.toList with
  | [hs, ms] =>
    if isDigits1to 2 hs && isDigits1to 2 ms then
      let h := digitsToNat hs
      let m := digitsToNat ms
      if h ≤ 23 && m ≤ 59 then some (h, m) else none
    else none
  | _ => none

/-- Embeds `datetime.strptime(f"{date} {time}", '%Y-%m-%d %H:%M')` as the store
uses it on its date and time fields. -/
def parseDT (dateStr timeStr : String) : Option PyDateTime :=
  match parseDate dateStr, parseTimeHM timeStr with
  | some d, some (h, m) => some ⟨d, h, m⟩
  | _, _ => none

/-- Embeds `date.strftime('%Y-%m-%d')`. -/
def formatDateISO (d : PyDate) : String :=
  pad4 d.year ++ "-" ++ pad2 d.month ++ "-" ++ pad2 d.day

/-! ### Civil-date arithmetic (for `timedelta` and `weekday()`)

Days-from-civil / civil-from-days (Howard Hinnant's algorithms, shifted to
an era starting 0000-03-01 so everything stays in `Nat`). -/

def daysFromCivil (dt : PyDate) : Nat :=
  let y := if dt.month ≤ 2 then dt.year - 1 else dt.year
  let era := y / 400
  let yoe := y % 400
  let mp := (dt.month + 9) % 12
  let doy := (153 * mp + 2) / 5 + dt.day - 1
  let doe := yoe * 365 + yoe / 4 - yoe / 100 + doy
  era * 146097 + doe

def civilFromDays (z : Nat) : PyDate :=
  let era := z / 146097
  let doe := z % 146097
  let yoe := (doe - doe / 1460 + doe / 36524 - doe / 146096) / 365
  let y := yoe + era * 400
  let doy := doe - (365 * yoe + yoe / 4 - yoe / 100)
  let mp := (5 * doy + 2) / 153
  let d := doy - (153 * mp + 2) / 5 + 1
  let m := if mp < 10 then mp + 3 else mp - 9
  ⟨if m ≤ 2 then y + 1 else y, m, d⟩

/-- Embeds `today + timedelta(days=n)`. -/
def addDays (d : PyDate) (n : Nat) : PyDate := civilFromDays (daysFromCivil d + n)

/-- Embeds `date.weekday()`: Monday = 0 .. Sunday = 6. 0000-03-01 was a Wednesday. -/
def pyWeekday (d : PyDate) : Nat := (daysFromCivil d + 2) % 7

/-! ## Data model (`src/data_store.py`) -/

/-- A patient record (wall-clock `created_at` not modelled). -/
structure Patient where
  id : String
  name : String
  age : Nat
  condition : String
deriving DecidableEq, Repr

/-- A doctor record. -/
structure Doctor where
  id : Nat
  name : String
  specialty : String
deriving DecidableEq, Repr

/-- An appointment record (wall-clock metadata fields not modelled;
`status` is one of `"scheduled"`, `"cancelled"`, `"completed"`). -/
structure Appointment where
  id : Nat
  patient_id : String
  doctor_id : Nat
  date : String
  time : String
  status : String
deriving DecidableEq, Repr

/-- The in-memory state of `DataStore`. The Python dicts are insertion
ordered, so lists keyed by the record's own `id` field model them; dict
key uniqueness is the `Nodup` well-formedness condition where needed. -/
structure DataStore where
  patients : List Patient
  doctors : List Doctor
  appointments : List Appointment
  next_appointment_id : Nat
deriving DecidableEq, Repr

/-! ### Store operations -/

/-- Embeds `DataStore.get_patient_by_id` for a token (string) id:
`self.patients.get(patient_id)`. -/
def get_patient_by_id (st : DataStore) (patient_id : String) : Option Patient :=
  st.patients.find? (fun p => p.id == patient_id)

/-- Embeds `DataStore.get_doctor_by_id`: `self.doctors.get(doctor_id)`. -/
def get_doctor_by_id (st : DataStore) (doctor_id : Nat) : Option Doctor :=
  st.doctors.find? (fun d => d.id == doctor_id)

/-- The alias table in `DataStore.find_doctor_by_name_or_specialty`. -/
def specialty_mapping (q : String) : String :=
  if q == "dermatologist" then "dermatology"
  else if q == "pediatrician" then "pediatrics"
  else if q == "general" then "general medicine"
  else if q == "endocrinologist" then "endocrinology"
  else q

/-- Embeds `DataStore.find_doctor_by_name_or_specialty`: first substring match on
names, then substring match on specialties through the alias table. -/
def find_doctor_by_name_or_specialty (st : DataStore) (query : String) : Option Doctor :=
  let query_lower := pyStrip (pyLower query)
  match st.doctors.find? (fun d => strContains (pyLower d.name) query_lower) with
  | some d => some d
  | none =>
    let mapped := specialty_mapping query_lower
    st.doctors.find? (fun d => strContains (pyLower d.specialty) mapped)

/-- Embeds `DataStore.create_appointment`: requires the patient to resolve
(`ValueError` otherwise, modelled as `none`); appends a `scheduled`
appointment under the next sequential id. -/
def create_appointment (st : DataStore) (patient_id : String) (doctor_id : Nat)
    (date time : String) : Option (Nat × DataStore) :=
  match get_patient_by_id st patient_id with
  | none => none
  | some patient =>
    let appointment_id := st.next_appointment_id
    some (appointment_id,
      { st with
        appointments := st.appointments ++
          [{ id := appointment_id, patient_id := patient.id, doctor_id := doctor_id,
             date := date, time := time, status := "scheduled" }],
        next_appointment_id := appointment_id + 1 })

/-- Embeds `DataStore.get_patient_appointments`: the patient's non-cancelled
appointments (empty if the patient does not resolve). -/
def get_patient_appointments (st : DataStore) (patient_id : String) : List Appointment :=
  match get_patient_by_id st patient_id with
  | none => []
  | some patient =>
    st.appointments.filter (fun a => a.patient_id == patient.id && a.status != "cancelled")

/-- Embeds `DataStore.is_slot_available`: false iff some appointment matches the
exact `(doctor_id, date, time)` triple with status `scheduled`. -/
def is_slot_available (st : DataStore) (doctor_id : Nat) (date time : String) : Bool :=
  !(st.appointments.any (fun a =>
      a.doctor_id == doctor_id && a.date == date && a.time == time && a.status == "scheduled"))

/-- Embeds `DataStore.update_appointment`: in-place date/time mutation, `false`
and no change if the id is unknown. -/
def update_appointment (st : DataStore) (appointment_id : Nat)
    (new_date new_time : String) : Bool × DataStore :=
  if st.appointments.any (fun a => a.id == appointment_id) then
    (true,
      { st with
        appointments := st.appointments.map (fun a =>
          if a.id == appointment_id then { a with date := new_date, time := new_time } else a) })
  else (false, st)

/-- Embeds `DataStore.delete_appointment`: soft delete — mark `cancelled`. -/
def delete_appointment (st : DataStore) (appointment_id : Nat) : Bool × DataStore :=
  if st.appointments.any (fun a => a.id == appointment_id) then
    (true,
      { st with
        appointments := st.appointments.map (fun a =>
          if a.id == appointment_id then { a with status := "cancelled" } else a) })
  else (false, st)

/-- Embeds `DataStore.delete_patient`: hard delete of the patient record. -/
def delete_patient (st : DataStore) (patient_id : String) : Bool × DataStore :=
  if st.patients.any (fun p => p.id == patient_id) then
    (true, { st with patients := st.patients.filter (fun p => !(p.id == patient_id)) })
  else (false, st)

/-- Embeds `patient['name'] if patient else 'Unknown'`. -/
def patientNameOf (st : DataStore) (patient_id : String) : String :=
  match get_patient_by_id st patient_id with
  | some p => p.name
  | none => "Unknown"

/-- Embeds `doctor['name'] if doctor else 'Unknown'`. -/
def doctorNameOf (st : DataStore) (doctor_id : Nat) : String :=
  match get_doctor_by_id st doctor_id with
  | some d => d.name
  | none => "Unknown"

/-- Embeds `doctor['specialty'] if doctor else 'Unknown'`. -/
def doctorSpecialtyOf (st : DataStore) (doctor_id : Nat) : String :=
  match get_doctor_by_id st doctor_id with
  | some d => d.specialty
  | none => "Unknown"

/-! ### `get_all_appointments` -/

/-- The joined row `get_all_appointments` returns for one appointment. -/
structure AppointmentView where
  id : Nat
  patient_id : String
  doctor_id : Nat
  date : String
  time : String
  status : String
  patient_name : String
  doctor_name : String
  specialty : String
  is_expired : Bool
deriving DecidableEq, Repr

/-- The local variable names that can be bound when the loop body of
`DataStore.get_all_appointments` reaches the line
`apt_data['is_expired'] = is_expired if 'apt_date' in locals() else False`
(`apt_datetime` is bound only after a successful `strptime`, possibly on an
earlier iteration). No assignment to `apt_date` exists in the function. -/
def getAllAppointmentsLocals : List String :=
  ["self", "include_expired", "result", "now", "apt",
   "apt_datetime_str", "apt_datetime", "is_expired", "patient", "doctor", "apt_data"]

/-- Embeds `DataStore.get_all_appointments`: skips cancelled rows always and
expired rows unless requested; joins display names; the reported
`is_expired` goes through the `'apt_date' in locals()` guard. -/
def get_all_appointments (st : DataStore) (include_expired : Bool)
    (now : PyDateTime) : List AppointmentView :=
  st.appointments.filterMap (fun apt =>
    if apt.status == "cancelled" then none
    else
      let is_expired :=
        match parseDT apt.date apt.time with
        | some aptDT => dtLtB aptDT now
        | none => false
      let skip :=
        match parseDT apt.date apt.time with
        | some aptDT => dtLtB aptDT now && !include_expired
        | none => false
      if skip then none
      else
        some { id := apt.id, patient_id := apt.patient_id, doctor_id := apt.doctor_id,
               date := apt.date, time := apt.time, status := apt.status,
               patient_name := patientNameOf st apt.patient_id,
               doctor_name := doctorNameOf st apt.doctor_id,
               specialty := doctorSpecialtyOf st apt.doctor_id,
               is_expired :=
                 if getAllAppointmentsLocals.contains "apt_date" then is_expired else false })

/-! ### `get_stats` -/

/-- The date-only expiry test `get_stats` applies to a scheduled
appointment: `apt_date < today`, counting parse failures as active. -/
def statsDateExpired (today : PyDate) (a : Appointment) : Bool :=
  match parseDate a.date with
  | some apt_date => dateLtB apt_date today
  | none => false

/-- The `active_appointments` list built by the `get_stats` loop. -/
def statsActiveList (st : DataStore) (today : PyDate) : List Appointment :=
  st.appointments.filter (fun a => a.status == "scheduled" && !statsDateExpired today a)

/-- The `expired_appointments` list built by the `get_stats` loop. -/
def statsExpiredList (st : DataStore) (today : PyDate) : List Appointment :=
  st.appointments.filter (fun a => a.status == "scheduled" && statsDateExpired today a)

structure Stats where
  total_patients : Nat
  total_doctors : Nat
  active_appointments : Nat
  expired_appointments : Nat
  completed_appointments : Nat
  cancelled_appointments : Nat
deriving DecidableEq, Repr

/-- Embeds `DataStore.get_stats` (with `today = datetime.now().date()`). -/
def get_stats (st : DataStore) (today : PyDate) : Stats :=
  { total_patients := st.patients.length
    total_doctors := st.doctors.length
    active_appointments := (statsActiveList st today).length
    expired_appointments := (statsExpiredList st today).length
    completed_appointments := (st.appointments.filter (fun a => a.status == "completed")).length
    cancelled_appointments := (st.appointments.filter (fun a => a.status == "cancelled")).length }

/-! ### `cleanup_expired_appointments` -/

/-- The cleanup expiry test: full `date+time` strictly before `now`,
regardless of status; unparseable rows are skipped (`continue`). -/
def cleanupExpired (now : PyDateTime) (a : Appointment) : Bool :=
  match parseDT a.date a.time with
  | some aptDT => dtLtB aptDT now
  | none => false

/-- One record of the cleanup summary's `expired_appointments` list. -/
structure ExpiredRecord where
  appointment_id : Nat
  patient_name : String
  doctor_name : String
  date : String
  time : String
  status : String
deriving DecidableEq, Repr

/-- The summary `cleanup_expired_appointments` returns
(`cleanup_date` is a wall-clock timestamp, not modelled). -/
structure CleanupSummary where
  expired_count : Nat
  expired_appointments : List ExpiredRecord
  removed_appointment_ids : List Nat
deriving DecidableEq, Repr

/-- Embeds `DataStore.cleanup_expired_appointments`: identifies every appointment
whose `date+time` parses and is `< now` (first pass) and hard-deletes them
from the map (second pass). -/
def cleanup_expired_appointments (st : DataStore) (now : PyDateTime) :
    CleanupSummary × DataStore :=
  let expired := st.appointments.filter (cleanupExpired now)
  ({ expired_count := expired.length
     expired_appointments := expired.map (fun a =>
       { appointment_id := a.id, patient_name := patientNameOf st a.patient_id,
         doctor_name := doctorNameOf st a.doctor_id,
         date := a.date, time := a.time, status := a.status })
     removed_appointment_ids := expired.map (fun a => a.id) },
   { st with appointments := st.appointments.filter (fun a => !cleanupExpired now a) })

/-! ## Date/time normalizer (`_parse_date` / `_parse_time` of the workers)

`re.search` over the three time patterns is embedded positionally: the
leftmost position wins, and the greedy 1-2 digit hour backtracks from two
digits to one exactly as the regex engine does. -/

/-- Value of a digit character. -/
def dval (c : Char) : Nat := c.toNat - '0'.toNat

/-- Embeds `(am|pm)` at a position of the lowered string: `true` for pm. -/
def ampmAt : List Char → Option Bool
  | 'a' :: 'm' :: _ => some false
  | 'p' :: 'm' :: _ => some true
  | _ => none

/-- Exactly two digits (`\d{2}`), returning the value and the rest. -/
def twoDigits : List Char → Option (Nat × List Char)
  | a :: b :: r => if a.isDigit && b.isDigit then some (dval a * 10 + dval b, r) else none
  | _ => none

/-- Tail of pattern `(\d{1,2}):(\d{2})\s*(am|pm)` after the hour. -/
def p1Tail (h : Nat) : List Char → Option (Nat × Nat × Bool)
  | ':' :: r =>
    match twoDigits r with
    | some (m, r') =>
      match ampmAt (r'.dropWhile pyIsSpace) with
      | some pm => some (h, m, pm)
      | none => none
    | none => none
  | _ => none

/-- Pattern `(\d{1,2}):(\d{2})\s*(am|pm)` anchored at a position. -/
def p1At : List Char → Option (Nat × Nat × Bool)
  | [] => none
  | c1 :: rest =>
    if c1.isDigit then
      match rest with
      | c2 :: rest2 =>
        if c2.isDigit then p1Tail (dval c1 * 10 + dval c2) rest2 <|> p1Tail (dval c1) rest
        else p1Tail (dval c1) rest
      | [] => none
    else none

/-- Embeds `re.search` for pattern 1. -/
def searchP1 : List Char → Option (Nat × Nat × Bool)
  | [] => none
  | c :: t => p1At (c :: t) <|> searchP1 t

/-- Tail of pattern `(\d{1,2})\s*(am|pm)` after the hour. -/
def p2Tail (h : Nat) (r : List Char) : Option (Nat × Bool) :=
  match ampmAt (r.dropWhile pyIsSpace) with
  | some pm => some (h, pm)
  | none => none

/-- Pattern `(\d{1,2})\s*(am|pm)` anchored at a position. -/
def p2At : List Char → Option (Nat × Bool)
  | [] => none
  | c1 :: rest =>
    if c1.isDigit then
      match rest with
      | c2 :: rest2 =>
        if c2.isDigit then p2Tail (dval c1 * 10 + dval c2) rest2 <|> p2Tail (dval c1) rest
        else p2Tail (dval c1) rest
      | [] => p2Tail (dval c1) []
    else none

/-- Embeds `re.search` for pattern 2. -/
def searchP2 : List Char → Option (Nat × Bool)
  | [] => none
  | c :: t => p2At (c :: t) <|> searchP2 t

/-- Tail of pattern `(\d{1,2}):(\d{2})` after the hour. -/
def p3Tail (h : Nat) : List Char → Option (Nat × Nat)
  | ':' :: r =>
    match twoDigits r with
    | some (m, _) => some (h, m)
    | none => none
  | _ => none

/-- Pattern `(\d{1,2}):(\d{2})` anchored at a position. -/
def p3At : List Char → Option (Nat × Nat)
  | [] => none
  | c1 :: rest =>
    if c1.isDigit then
      match rest with
      | c2 :: rest2 =>
        if c2.isDigit then p3Tail (dval c1 * 10 + dval c2) rest2 <|> p3Tail (dval c1) rest
        else p3Tail (dval c1) rest
      | [] => none
    else none

/-- Embeds `re.search` for pattern 3. -/
def searchP3 : List Char → Option (Nat × Nat)
  | [] => none
  | c :: t => p3At (c :: t) <|> searchP3 t

/-- The 12-hour adjustment both `_parse_time` copies apply:
`pm` and hour ≠ 12 adds 12; `am` and hour = 12 gives 0. -/
def hourAdjust (h : Nat) (pm : Bool) : Nat :=
  if pm && h != 12 then h + 12
  else if !pm && h == 12 then 0
  else h

/-- Embeds `f"{hour:02d}:{minute:02d}"`. -/
def fmtHM (h m : Nat) : String := pad2 h ++ ":" ++ pad2 m

/-- Pattern 3 step of the `_parse_time` loop (validated 24-hour `H:MM`). -/
def timeTryP3 (s : List Char) : Option String :=
  match searchP3 s with
  | some (h, m) => if h ≤ 23 && m ≤ 59 then some (fmtHM h m) else none
  | none => none

/-- Pattern 2 step of the `_parse_time` loop; a match failing the 0-23
range falls through to pattern 3, as the `for pattern in time_patterns`
loop continues when no `return` fires. -/
def timeTryP2 (s : List Char) : Option String :=
  match searchP2 s with
  | some (h, pm) =>
    let h' := hourAdjust h pm
    if h' ≤ 23 then some (fmtHM h' 0) else timeTryP3 s
  | none => timeTryP3 s

/-- The explicit-pattern part shared verbatim by both `_parse_time`
copies (`SchedulingWorker` and `ManagementWorker`). -/
def timeFromPatterns (s : List Char) : Option String :=
  match searchP1 s with
  | some (h, m, pm) =>
    let h' := hourAdjust h pm
    if h' ≤ 23 && m ≤ 59 then some (fmtHM h' m) else timeTryP2 s
  | none => timeTryP2 s

/-- Embeds `SchedulingWorker._parse_time` (named bands including `noon`, then the
regex patterns). -/
def schedParseTime (time_str : Option String) : Option String :=
  match time_str with
  | none => none
  | some s0 =>
    if s0 = "" then none
    else
      let s := pyStrip (pyLower s0)
      if strContains s "morning" then some "09:00"
      else if strContains s "afternoon" then some "14:00"
      else if strContains s "evening" then some "17:00"
      else if strContains s "noon" || s == "12pm" then some "12:00"
      else timeFromPatterns s.toList

/-- Embeds `ManagementWorker._parse_time` (no `noon` band, otherwise identical). -/
def mgmtParseTime (time_str : Option String) : Option String :=
  match time_str with
  | none => none
  | some s0 =>
    if s0 = "" then none
    else
      let s := pyStrip (pyLower s0)
      if strContains s "morning" then some "09:00"
      else if strContains s "afternoon" then some "14:00"
      else if strContains s "evening" then some "17:00"
      else timeFromPatterns s.toList

/-! ### Date parsing -/

/-- Embeds `str.count('-') == 2` style character counting. -/
def countChar (s : String) (c : Char) : Nat := s.toList.count c

/-- The fixed weekday ordering both workers iterate. -/
def weekdayNames : List (Nat × String) :=
  [(0, "monday"), (1, "tuesday"), (2, "wednesday"), (3, "thursday"),
   (4, "friday"), (5, "saturday"), (6, "sunday")]

/-- The `'next' in date_str_lower` branch: forward-only weekday offset,
`days_ahead += 7` when the named day is today or already passed. -/
def nextWeekdayDate (today : PyDate) (sl : String) : Option String :=
  match weekdayNames.find? (fun p => strContains sl p.2) with
  | some (i, _) =>
    let wd := pyWeekday today
    let ahead := if i ≤ wd then i + 7 - wd else i - wd
    some (formatDateISO (addDays today ahead))
  | none => none

/-- The `'this' in date_str_lower` branch (`SchedulingWorker` only):
same-day allowed, `+= 7` only when the day has truly passed. -/
def thisWeekdayDate (today : PyDate) (sl : String) : Option String :=
  match weekdayNames.find? (fun p => strContains sl p.2) with
  | some (i, _) =>
    let wd := pyWeekday today
    let ahead := if i < wd then i + 7 - wd else i - wd
    some (formatDateISO (addDays today ahead))
  | none => none

/-- Embeds `ManagementWorker._parse_date`: ISO passthrough, `today`, `tomorrow`,
`next <weekday>`; anything else is `None`. -/
def mgmtParseDate (today : PyDate) (date_str : Option String) : Option String :=
  match date_str with
  | none => none
  | some s =>
    if s = "" then none
    else if s.length == 10 && countChar s '-' == 2 && (parseDate s).isSome then some s
    else
      let sl := pyStrip (pyLower s)
      if sl == "today" then some (formatDateISO today)
      else if sl == "tomorrow" then some (formatDateISO (addDays today 1))
      else if strContains sl "next" then nextWeekdayDate today sl
      else none

/-- Embeds `%m/%d/%Y` and `%d/%m/%Y`: shared field validation with `parseDate`. -/
def mkDateFromFields (ys ms ds : List Char) : Option PyDate :=
  if ys.all Char.isDigit && decide (ys.length = 4)
      && isDigits1to 2 ms && isDigits1to 2 ds then
    let y := digitsToNat ys
    let m := digitsToNat ms
    let d := digitsToNat ds
    if 1 ≤ y && 1 ≤ m && m ≤ 12 && 1 ≤ d && d ≤ daysInMonth y m then
      some ⟨y, m, d⟩
    else none
  else none

/-- Embeds `strptime` on `'%m/%d/%Y'`. -/
def parseMDY (s : String) : Option PyDate :=
  match splitOnChar '/' s.toList with
  | [ms, ds, ys] => mkDateFromFields ys ms ds
  | _ => none

/-- Embeds `strptime` on `'%d/%m/%Y'`. -/
def parseDMY (s : String) : Option PyDate :=
  match splitOnChar '/' s.toList with
  | [ds, ms, ys] => mkDateFromFields ys ms ds
  | _ => none

def monthFullNames : List (Nat × List Char) :=
  [(1, "january".toList), (2, "february".toList), (3, "march".toList),
   (4, "april".toList), (5, "may".toList), (6, "june".toList), (7, "july".toList),
   (8, "august".toList), (9, "september".toList), (10, "october".toList),
   (11, "november".toList), (12, "december".toList)]

def monthAbbrevNames : List (Nat × List Char) :=
  [(1, "jan".toList), (2, "feb".toList), (3, "mar".toList), (4, "apr".toList),
   (5, "may".toList), (6, "jun".toList), (7, "jul".toList), (8, "aug".toList),
   (9, "sep".toList), (10, "oct".toList), (11, "nov".toList), (12, "dec".toList)]

/-- Tail of `'%B %d, %Y'` after the day: literal comma, whitespace, a
4-digit year, end of input; day validated against the month. -/
def monthDateTail (m d : Nat) : List Char → Option PyDate
  | ',' :: r =>
    let r' := r.dropWhile pyIsSpace
    if r'.length == r.length then none
    else
      match r' with
      | a :: b :: c :: e :: rest =>
        if a.isDigit && b.isDigit && c.isDigit && e.isDigit && rest.isEmpty then
          let y := digitsToNat [a, b, c, e]
          if 1 ≤ y && 1 ≤ d && d ≤ daysInMonth y m then some ⟨y, m, d⟩ else none
        else none
      | _ => none
  | _ => none

/-- Embeds `strptime` on `'%B %d, %Y'` / `'%b %d, %Y'` (case-insensitive month
names, whitespace as `\s+`, greedy 1-2 digit day with backtracking). -/
def parseMonthNameDate (names : List (Nat × List Char)) (s : String) : Option PyDate :=
  let cs := s.toList.map Char.toLower
  match names.find? (fun p => p.2.isPrefixOf cs) with
  | some (m, nm) =>
    let r1 := cs.drop nm.length
    let r2 := r1.dropWhile pyIsSpace
    if r2.length == r1.length then none
    else
      match r2 with
      | c1 :: c2 :: r =>
        if c1.isDigit && c2.isDigit then
          monthDateTail m (dval c1 * 10 + dval c2) r <|> monthDateTail m (dval c1) (c2 :: r)
        else if c1.isDigit then monthDateTail m (dval c1) (c2 :: r)
        else none
      | [c1] => if c1.isDigit then monthDateTail m (dval c1) [] else none
      | [] => none
  | none => none

/-- The `formats` fallback loop of `SchedulingWorker._parse_date`, on the
original (unlowered) string, first success wins. -/
def tryDateFormats (s : String) : Option String :=
  (parseDate s <|> parseMDY s <|> parseDMY s
    <|> parseMonthNameDate monthFullNames s
    <|> parseMonthNameDate monthAbbrevNames s).map formatDateISO

/-- Embeds `SchedulingWorker._parse_date`: ISO passthrough, `today`, `tomorrow`,
`next <weekday>`, `this <weekday>`, then the fixed format list. -/
def schedParseDate (today : PyDate) (date_str : Option String) : Option String :=
  match date_str with
  | none => none
  | some s =>
    if s = "" then none
    else if s.length == 10 && countChar s '-' == 2 && (parseDate s).isSome then some s
    else
      let sl := pyStrip (pyLower s)
      if sl == "today" then some (formatDateISO today)
      else if sl == "tomorrow" then some (formatDateISO (addDays today 1))
      else if strContains sl "next" then nextWeekdayDate today sl
      else if strContains sl "this" then thisWeekdayDate today sl
      else tryDateFormats s

/-! ## Scheduling Worker (`src/agents/worker_scheduling.py`) -/

/-- The flat field map `execute_booking` receives. -/
structure BookingInfo where
  patient_id : Option String
  doctor_name : Option String
  specialty : Option String
  date : Option String
  time : Option String
deriving Repr

/-- One constructor per `return` site of `execute_booking`; `pyError` is
the `except` branch (e.g. `None.lower()` when neither doctor name nor
specialty was given). -/
inductive BookResult where
  | needPatientId
  | patientNotFound (patient_id : String)
  | doctorNotFound (query : String)
  | unparseableDate (date_str : Option String)
  | unparseableTime (time_str : Option String)
  | slotUnavailable (doctor_name date time : String)
  | booked (appointment_id : Nat)
      (patient_name patient_id doctor_name specialty date time : String)
  | pyError
deriving DecidableEq, Repr

/-- Embeds `SchedulingWorker.execute_booking`: validation order patient id →
patient exists → doctor resolves → date parses → time parses → slot
available → create. -/
def execute_booking (st : DataStore) (today : PyDate) (info : BookingInfo) :
    BookResult × DataStore :=
  match truthyOpt info.patient_id with
  | none => (.needPatientId, st)
  | some pid =>
    match get_patient_by_id st pid with
    | none => (.patientNotFound pid, st)
    | some patient =>
      match pyOr info.doctor_name info.specialty with
      | none => (.pyError, st)
      | some dq =>
        match find_doctor_by_name_or_specialty st dq with
        | none => (.doctorNotFound dq, st)
        | some doctor =>
          let parsed_date := schedParseDate today info.date
          let parsed_time := schedParseTime info.time
          match parsed_date with
          | none => (.unparseableDate info.date, st)
          | some pd =>
            match parsed_time with
            | none => (.unparseableTime info.time, st)
            | some pt =>
              if !is_slot_available st doctor.id pd pt then
                (.slotUnavailable doctor.name pd pt, st)
              else
                match create_appointment st pid doctor.id pd pt with
                | none => (.pyError, st)
                | some (aid, st1) =>
                  (.booked aid patient.name pid doctor.name doctor.specialty pd pt, st1)

/-! ## Management Worker (`src/agents/worker_management.py`) -/

/-- Embeds `[a for a in appointments if a['date'] >= today]` (string comparison
against `date.today().strftime('%Y-%m-%d')`). -/
def futureAppointments (appointments : List Appointment) (todayStr : String) :
    List Appointment :=
  appointments.filter (fun a => strGeB a.date todayStr)

/-- Stable insertion used to model Python's stable
`sorted(..., key=lambda x: x['date'])`: a later element goes after
existing elements with an equal or smaller date. -/
def insertByDate (a : Appointment) : List Appointment → List Appointment
  | [] => [a]
  | b :: bs => if strLeB b.date a.date then b :: insertByDate a bs else a :: b :: bs

/-- Embeds `sorted(appointments, key=lambda x: x['date'])`. -/
def sortByDate (l : List Appointment) : List Appointment :=
  l.foldl (fun acc a => insertByDate a acc) []

/-- Target-appointment resolution shared by reschedule and cancel: an
explicit (truthy, parseable) date picks the first appointment on that
date; otherwise the soonest appointment with `date >= today`. -/
def locateTarget (appointments : List Appointment) (today : PyDate)
    (dateOpt : Option String) : Option Appointment :=
  let byDate : Option Appointment :=
    match truthyOpt dateOpt with
    | some ds =>
      match mgmtParseDate today (some ds) with
      | some pd => appointments.find? (fun a => a.date == pd)
      | none => none
    | none => none
  match byDate with
  | some a => some a
  | none => (sortByDate (futureAppointments appointments (formatDateISO today))).head?

/-- The field map `reschedule_appointment` receives. -/
structure RescheduleInfo where
  patient_id : Option String
  current_date : Option String
  date : Option String
  new_date : Option String
  time : Option String
  new_time : Option String
deriving Repr

/-- One constructor per `return` site of `reschedule_appointment`;
`pyError` is the `except` branch (a `doctor['name']` access on a failed
doctor lookup). -/
inductive RescheduleResult where
  | needPatientId
  | patientNotFound (patient_id : String)
  | noUpcoming (patient_name : String)
  | promptNewDateTime (doctor_name date time : String)
  | unparseableDate (s : Option String)
  | unparseableTime (s : Option String)
  | slotUnavailable (doctor_name date time : String)
  | rescheduled (patient_name doctor_name old_date old_time new_date new_time : String)
  | rescheduleError
  | pyError
deriving DecidableEq, Repr

/-- Embeds `ManagementWorker.reschedule_appointment`. The availability check on
the new slot is plain `is_slot_available`, with no exclusion of the
appointment being moved. In the success payload the source reads
`target_appointment['date']`/`['time']` after `update_appointment` has
mutated that same dict in place, so the reported old values equal the new
ones. -/
def reschedule_appointment (st : DataStore) (today : PyDate) (info : RescheduleInfo) :
    RescheduleResult × DataStore :=
  match truthyOpt info.patient_id with
  | none => (.needPatientId, st)
  | some pid =>
    match get_patient_by_id st pid with
    | none => (.patientNotFound pid, st)
    | some patient =>
      let appointments := get_patient_appointments st pid
      let new_date := pyOr info.date info.new_date
      let new_time := pyOr info.time info.new_time
      match locateTarget appointments today info.current_date with
      | none => (.noUpcoming patient.name, st)
      | some target =>
        if truthyOpt new_date == none || truthyOpt new_time == none then
          match get_doctor_by_id st target.doctor_id with
          | none => (.pyError, st)
          | some doctor => (.promptNewDateTime doctor.name target.date target.time, st)
        else
          match mgmtParseDate today new_date with
          | none => (.unparseableDate new_date, st)
          | some pd =>
            match mgmtParseTime new_time with
            | none => (.unparseableTime new_time, st)
            | some pt =>
              if !is_slot_available st target.doctor_id pd pt then
                match get_doctor_by_id st target.doctor_id with
                | none => (.pyError, st)
                | some doctor => (.slotUnavailable doctor.name pd pt, st)
              else
                let upd := update_appointment st target.id pd pt
                if upd.1 then
                  match get_doctor_by_id upd.2 target.doctor_id with
                  | none => (.pyError, upd.2)
                  | some doctor =>
                    (.rescheduled patient.name doctor.name pd pt pd pt, upd.2)
                else (.rescheduleError, st)

/-- The field map `cancel_appointment` receives. -/
structure CancelInfo where
  patient_id : Option String
  date : Option String
  appointment_date : Option String
deriving Repr

/-- One constructor per `return` site of `cancel_appointment`. -/
inductive CancelResult where
  | needPatientId
  | patientNotFound (patient_id : String)
  | noUpcoming (patient_name : String)
  | confirmCancel (doctor_name date time : String)
  | cancelled (patient_name doctor_name date time : String) (patient_removed : Bool)
  | cancelError
  | pyError
deriving DecidableEq, Repr

/-- Embeds `ManagementWorker.cancel_appointment`: soft-deletes the target, then
cascade-deletes the patient exactly when no non-cancelled appointment
remains; with no explicit date and more than one future appointment it
only asks for confirmation. -/
def cancel_appointment (st : DataStore) (today : PyDate) (info : CancelInfo) :
    CancelResult × DataStore :=
  match truthyOpt info.patient_id with
  | none => (.needPatientId, st)
  | some pid =>
    match get_patient_by_id st pid with
    | none => (.patientNotFound pid, st)
    | some patient =>
      let appointments := get_patient_appointments st pid
      let appointment_date := pyOr info.date info.appointment_date
      match locateTarget appointments today appointment_date with
      | none => (.noUpcoming patient.name, st)
      | some target =>
        if truthyOpt appointment_date == none
            && 1 < (futureAppointments appointments (formatDateISO today)).length then
          match get_doctor_by_id st target.doctor_id with
          | none => (.pyError, st)
          | some doctor => (.confirmCancel doctor.name target.date target.time, st)
        else
          let del := delete_appointment st target.id
          if del.1 then
            match get_doctor_by_id del.2 target.doctor_id with
            | none => (.pyError, del.2)
            | some doctor =>
              let remaining := get_patient_appointments del.2 pid
              let dp := if remaining.isEmpty then delete_patient del.2 pid else (false, del.2)
              (.cancelled patient.name doctor.name target.date target.time dp.1, dp.2)
          else (.cancelError, st)

/-! ## Master agent intent routing (`src/agents/master_agent.py`) -/

/-- Step 2 of `MasterAgent.process_request`: the stored `last_intent` is
preserved when the resolved intent is `provide_info` and the current
`last_intent` is one of `book`/`reschedule`/`cancel`; otherwise it is
overwritten with the resolved intent. -/
def stepLastIntent (current_last_intent : Option String) (intent : String) : Option String :=
  if intent == "provide_info"
      && (current_last_intent == some "book" || current_last_intent == some "reschedule"
          || current_last_intent == some "cancel") then
    current_last_intent
  else some intent

/-- The handler a turn is dispatched to by `_handle_user_request`.
`infoProvision` is the generic information-acknowledgement reply path
(`_handle_info_provision` with no active transaction). -/
inductive HandlerPath where
  | greeting
  | booking
  | reschedule
  | cancellation
  | query
  | infoProvision
  | unclear
deriving DecidableEq, Repr

/-- Embeds `MasterAgent._handle_user_request`: dispatch on the resolved intent,
with `provide_info` re-routed through the stored `last_intent`. -/
def handle_user_request (intent : String) (last_intent : Option String) : HandlerPath :=
  if intent == "greeting" then .greeting
  else if intent == "book" then .booking
  else if intent == "provide_info" then
    if last_intent == some "book" then .booking
    else if last_intent == some "reschedule" then .reschedule
    else if last_intent == some "cancel" then .cancellation
    else .infoProvision
  else if intent == "query" then .query
  else if intent == "reschedule" then .reschedule
  else if intent == "cancel" then .cancellation
  else .unclear

/-- Steps 2-3 of `process_request` as they act on `last_intent`: update
the stored intent, then dispatch reading the updated value. -/
def processTurnRouting (last_intent : Option String) (intent : String) :
    Option String × HandlerPath :=
  let updated := stepLastIntent last_intent intent
  (updated, handle_user_request intent updated)

/-! ## Store operation traces (for the slot-availability claims) -/

/-- The store mutations reachable from the workers and the cleanup task. -/
inductive StoreOp where
  | createAppt (patient_id : String) (doctor_id : Nat) (date time : String)
  | updateAppt (appointment_id : Nat) (new_date new_time : String)
  | cancelAppt (appointment_id : Nat)
  | removePatient (patient_id : String)
  | cleanup (now : PyDateTime)

/-- State effect of one store operation. -/
def applyOp (st : DataStore) : StoreOp → DataStore
  | .createAppt pid did d t =>
    match create_appointment st pid did d t with
    | some (_, st1) => st1
    | none => st
  | .updateAppt aid d t => (update_appointment st aid d t).2
  | .cancelAppt aid => (delete_appointment st aid).2
  | .removePatient pid => (delete_patient st pid).2
  | .cleanup now => (cleanup_expired_appointments st now).2

/-- An operation leaves a given appointment record untouched: it is not a
cancellation or move of that appointment, and not a cleanup that expires
it. -/
def opLeavesAppt (op : StoreOp) (a : Appointment) : Prop :=
  match op with
  | .updateAppt aid _ _ => aid ≠ a.id
  | .cancelAppt aid => aid ≠ a.id
  | .cleanup now => cleanupExpired now a = false
  | _ => True

/-! ## Success flags and concrete fixtures -/

/-- The `"success"` field of each `execute_booking` outcome. -/
def BookResult.success : BookResult → Bool
  | .booked _ _ _ _ _ _ _ => true
  | _ => false

/-- The `"success"` field of each `reschedule_appointment` outcome. -/
def RescheduleResult.success : RescheduleResult → Bool
  | .rescheduled _ _ _ _ _ _ => true
  | _ => false

/-- The `"success"` field of each `cancel_appointment` outcome. -/
def CancelResult.success : CancelResult → Bool
  | .cancelled _ _ _ _ _ => true
  | _ => false

/-- Fixture patient (the spec's example token id). -/
def exPatient : Patient :=
  { id := "PAB1234", name := "Alice", age := 35, condition := "General consultation" }

/-- Fixture doctor (first seeded doctor). -/
def exDoctor : Doctor := { id := 1, name := "Dr. Adams", specialty := "General Medicine" }

/-- Fixture appointment of `exPatient` with `exDoctor`. -/
def exAppt1 : Appointment :=
  { id := 1, patient_id := "PAB1234", doctor_id := 1,
    date := "2030-01-01", time := "09:00", status := "scheduled" }

/-- Fixture second appointment of `exPatient`, later date. -/
def exAppt2 : Appointment :=
  { id := 2, patient_id := "PAB1234", doctor_id := 1,
    date := "2030-02-01", time := "10:00", status := "scheduled" }

/-- Fixture cancelled appointment strictly in the past. -/
def exApptPast : Appointment :=
  { id := 3, patient_id := "PAB1234", doctor_id := 1,
    date := "2020-01-01", time := "09:00", status := "cancelled" }

/-- Store with no appointments. -/
def exStore0 : DataStore := { patients := [exPatient], doctors := [exDoctor],
                              appointments := [], next_appointment_id := 1 }

/-- Store with the single scheduled appointment `exAppt1`. -/
def exStore1 : DataStore := { patients := [exPatient], doctors := [exDoctor],
                              appointments := [exAppt1], next_appointment_id := 2 }

/-- Store with two future scheduled appointments for the same patient. -/
def exStore2 : DataStore := { patients := [exPatient], doctors := [exDoctor],
                              appointments := [exAppt1, exAppt2], next_appointment_id := 3 }

/-- Store holding a future scheduled appointment and a past cancelled one. -/
def exStorePast : DataStore := { patients := [exPatient], doctors := [exDoctor],
                                 appointments := [exAppt1, exApptPast],
                                 next_appointment_id := 4 }

/-- Store holding one scheduled appointment dated on `exNow`'s day,
earlier than `exNow`'s time of day. -/
def exStoreToday : DataStore := { patients := [exPatient], doctors := [exDoctor],
                                  appointments := [{ id := 5, patient_id := "PAB1234",
                                                     doctor_id := 1, date := "2026-10-12",
                                                     time := "08:00", status := "scheduled" }],
                                  next_appointment_id := 6 }

/-- Fixture wall-clock date. -/
def exToday : PyDate := ⟨2029, 12, 31⟩

/-- Fixture wall-clock instant (noon on 2026-10-12). -/
def exNow : PyDateTime := ⟨⟨2026, 10, 12⟩, 12, 0⟩

/-! ## Helper lemmas -/

theorem lexLe_refl (l : List Char) : lexLe l l = true := by
  induction l with
  | nil => rfl
  | cons a t ih => simp [lexLe, ih]

theorem lexLe_total (a b : List Char) : lexLe a b = true ∨ lexLe b a = true := by
  induction a generalizing b with
  | nil => left; rfl
  | cons x xs ih =>
    cases b with
    | nil => right; rfl
    | cons y ys =>
      by_cases h1 : x.toNat < y.toNat
      · left; simp [lexLe, h1]
      · by_cases h2 : y.toNat < x.toNat
        · right; simp [lexLe, h2]
        · rcases ih ys with h | h
          · left; simp [lexLe, h1, h2, h]
          · right; simp [lexLe, h1, h2, h]

theorem lexLe_trans {a b c : List Char} (h1 : lexLe a b = true) (h2 : lexLe b c = true) :
    lexLe a c = true := by
  induction a generalizing b c with
  | nil => rfl
  | cons x xs ih =>
    cases b with
    | nil => simp [lexLe] at h1
    | cons y ys =>
      cases c with
      | nil => simp [lexLe] at h2
      | cons z zs =>
        by_cases hxz : x.toNat < z.toNat
        · simp [lexLe, hxz]
        · by_cases hxy : x.toNat < y.toNat
          · have hzy : z.toNat < y.toNat := by omega
            simp [lexLe, hzy, show ¬y.toNat < z.toNat by omega] at h2
          · by_cases hyx : y.toNat < x.toNat
            · simp [lexLe, hxy, hyx] at h1
            · by_cases hyz : y.toNat < z.toNat
              · omega
              · by_cases hzy : z.toNat < y.toNat
                · simp [lexLe, hyz, hzy] at h2
                · have h1' : lexLe xs ys = true := by simpa [lexLe, hxy, hyx] using h1
                  have h2' : lexLe ys zs = true := by simpa [lexLe, hyz, hzy] using h2
                  simp [lexLe, hxz, show ¬z.toNat < x.toNat by omega, ih h1' h2']

theorem strLeB_refl (s : String) : strLeB s s = true := lexLe_refl _

theorem strLeB_total (a b : String) : strLeB a b = true ∨ strLeB b a = true :=
  lexLe_total _ _

theorem strLeB_trans {a b c : String} (h1 : strLeB a b = true) (h2 : strLeB b c = true) :
    strLeB a c = true := lexLe_trans h1 h2

theorem headMem {α} {l : List α} {a : α} (h : l.head? = some a) : a ∈ l := by
  cases l with
  | nil => cases h
  | cons x t =>
    simp only [List.head?_cons, Option.some.injEq] at h
    subst h
    exact List.mem_cons_self _ _

theorem mem_insertByDate {x a : Appointment} {l : List Appointment} :
    x ∈ insertByDate a l ↔ x = a ∨ x ∈ l := by
  induction l with
  | nil => simp [insertByDate]
  | cons b bs ih =>
    simp only [insertByDate]
    split
    · simp only [List.mem_cons, ih]
      tauto
    · simp only [List.mem_cons]

theorem foldl_insertByDate_mem (l : List Appointment) :
    ∀ (acc : List Appointment) (x : Appointment),
      x ∈ l.foldl (fun acc a => insertByDate a acc) acc ↔ x ∈ acc ∨ x ∈ l := by
  induction l with
  | nil => simp
  | cons a t ih =>
    intro acc x
    simp only [List.foldl_cons, ih, mem_insertByDate, List.mem_cons]
    tauto

theorem mem_sortByDate {x : Appointment} {l : List Appointment} :
    x ∈ sortByDate l ↔ x ∈ l := by
  simp [sortByDate, foldl_insertByDate_mem]

theorem insertByDate_pairwise {a : Appointment} {l : List Appointment}
    (h : l.Pairwise fun p q => strLeB p.date q.date = true) :
    (insertByDate a l).Pairwise fun p q => strLeB p.date q.date = true := by
  induction l with
  | nil => simp [insertByDate]
  | cons b bs ih =>
    rcases List.pairwise_cons.mp h with ⟨hb, hbs⟩
    simp only [insertByDate]
    split
    · refine List.pairwise_cons.mpr ⟨?_, ih hbs⟩
      intro x hx
      rcases mem_insertByDate.mp hx with rfl | hx
      · assumption
      · exact hb x hx
    · rename_i hcond
      have hab : strLeB a.date b.date = true := by
        rcases strLeB_total a.date b.date with hh | hh
        · exact hh
        · exact absurd hh (by simpa using hcond)
      refine List.pairwise_cons.mpr ⟨?_, h⟩
      intro x hx
      rcases List.mem_cons.mp hx with rfl | hx
      · exact hab
      · exact strLeB_trans hab (hb x hx)

theorem sortByDate_pairwise (l : List Appointment) :
    (sortByDate l).Pairwise fun p q => strLeB p.date q.date = true := by
  suffices h : ∀ acc : List Appointment,
      (acc.Pairwise fun p q => strLeB p.date q.date = true) →
      ((l.foldl (fun acc a => insertByDate a acc) acc).Pairwise fun p q =>
        strLeB p.date q.date = true) from h [] (by simp)
  induction l with
  | nil => intro acc hacc; simpa using hacc
  | cons a t ih => intro acc hacc; exact ih _ (insertByDate_pairwise hacc)

theorem sortByDate_head_min {l : List Appointment} {t : Appointment}
    (h : (sortByDate l).head? = some t) :
    ∀ b ∈ l, strLeB t.date b.date = true := by
  intro b hb
  have hmem : b ∈ sortByDate l := mem_sortByDate.mpr hb
  have hp := sortByDate_pairwise l
  cases hs : sortByDate l with
  | nil => rw [hs] at h; cases h
  | cons x rest =>
    rw [hs] at h hmem hp
    simp only [List.head?_cons, Option.some.injEq] at h
    subst h
    rcases List.mem_cons.mp hmem with rfl | hb'
    · exact strLeB_refl _
    · exact (List.pairwise_cons.mp hp).1 b hb'

theorem mem_of_mem_future {l : List Appointment} {s : String} {a : Appointment}
    (h : a ∈ futureAppointments l s) : a ∈ l := by
  unfold futureAppointments at h
  exact List.mem_of_mem_filter h

theorem locateTarget_mem {l : List Appointment} {today : PyDate} {dOpt : Option String}
    {a : Appointment} (h : locateTarget l today dOpt = some a) : a ∈ l := by
  unfold locateTarget at h
  dsimp only at h
  split at h
  · rename_i heq
    simp only [Option.some.injEq] at h
    subst h
    split at heq
    · split at heq
      · exact List.mem_of_find?_eq_some heq
      · cases heq
    · cases heq
  · exact mem_of_mem_future (mem_sortByDate.mp (headMem h))

theorem get_patient_appointments_sub {st : DataStore} {pid : String} {a : Appointment}
    (h : a ∈ get_patient_appointments st pid) : a ∈ st.appointments := by
  unfold get_patient_appointments at h
  cases hp : get_patient_by_id st pid with
  | none => rw [hp] at h; cases h
  | some p => rw [hp] at h; exact (List.mem_filter.mp h).1

theorem get_patient_by_id_key {st : DataStore} {pid : String} {p : Patient}
    (h : get_patient_by_id st pid = some p) : p.id = pid ∧ p ∈ st.patients := by
  unfold get_patient_by_id at h
  exact ⟨by simpa using List.find?_some h, List.mem_of_find?_eq_some h⟩

/-! ## Claims -/

/-- C8: for a session whose stored `last_intent` is `book`, `reschedule`
or `cancel`, a turn resolved as `provide_info` leaves `last_intent`
unchanged and is dispatched to the handler of the retained intent
(booking, reschedule or cancellation), never to the generic
information-acknowledgement reply. -/
theorem C8_sticky_intent (li : String)
    (h : li = "book" ∨ li = "reschedule" ∨ li = "cancel") :
    stepLastIntent (some li) "provide_info" = some li ∧
    handle_user_request "provide_info" (stepLastIntent (some li) "provide_info") =
      (if li = "book" then HandlerPath.booking
       else if li = "reschedule" then HandlerPath.reschedule
       else HandlerPath.cancellation) ∧
    handle_user_request "provide_info" (stepLastIntent (some li) "provide_info") ≠
      HandlerPath.infoProvision ∧
    processTurnRouting (some li) "provide_info" =
      (some li, handle_user_request "provide_info" (some li)) := by
  rcases h with rfl | rfl | rfl <;> exact ⟨rfl, by decide, by decide, rfl⟩

/-- Witness for C8 at the spec's own scenario (`last_intent = book`). -/
theorem C8_witness :
    stepLastIntent (some "book") "provide_info" = some "book" ∧
    handle_user_request "provide_info" (stepLastIntent (some "book") "provide_info") ≠
      HandlerPath.infoProvision := by
  have h := C8_sticky_intent "book" (Or.inl rfl)
  exact ⟨h.1, h.2.2.1⟩

/-- C9: `update_appointment` returns `false` and leaves the store
unchanged exactly when the id is unknown; on a stored id (any status) it
returns `true` and rewrites that appointment's date and time in place,
preserving `id`, `patient_id`, `doctor_id` and `status`, all other rows,
and the rest of the store. -/
theorem C9_update_appointment (st : DataStore) (aid : Nat) (nd nt : String) :
    ((update_appointment st aid nd nt).1 = false ↔ ∀ a ∈ st.appointments, a.id ≠ aid) ∧
    ((update_appointment st aid nd nt).1 = false → (update_appointment st aid nd nt).2 = st) ∧
    ((update_appointment st aid nd nt).1 = true →
      (update_appointment st aid nd nt).2.patients = st.patients ∧
      (update_appointment st aid nd nt).2.doctors = st.doctors ∧
      (update_appointment st aid nd nt).2.next_appointment_id = st.next_appointment_id ∧
      (∀ a ∈ st.appointments, a.id ≠ aid →
        a ∈ (update_appointment st aid nd nt).2.appointments) ∧
      (∀ a ∈ st.appointments, a.id = aid →
        { a with date := nd, time := nt } ∈ (update_appointment st aid nd nt).2.appointments) ∧
      (∀ b ∈ (update_appointment st aid nd nt).2.appointments,
        (b.id ≠ aid ∧ b ∈ st.appointments) ∨
        ∃ a ∈ st.appointments, a.id = aid ∧ b.id = a.id ∧ b.patient_id = a.patient_id ∧
          b.doctor_id = a.doctor_id ∧ b.status = a.status ∧ b.date = nd ∧ b.time = nt)) := by
  unfold update_appointment
  by_cases h : st.appointments.any (fun a => a.id == aid) = true
  · rw [if_pos h]
    dsimp only
    refine ⟨?_, ?_, ?_⟩
    · simp only [List.any_eq_true, beq_iff_eq] at h
      obtain ⟨a, ha, rfl⟩ := h
      constructor
      · intro hcon; cases hcon
      · intro hall; exact absurd rfl (hall a ha)
    · intro hcon; cases hcon
    · intro _
      refine ⟨rfl, rfl, rfl, ?_, ?_, ?_⟩
      · intro a ha hne
        have hf : (if (a.id == aid) = true then { a with date := nd, time := nt } else a)
            = a := by simp [hne]
        exact List.mem_map.mpr ⟨a, ha, hf⟩
      · intro a ha heq
        have hf : (if (a.id == aid) = true then { a with date := nd, time := nt } else a)
            = { a with date := nd, time := nt } := by simp [heq]
        exact List.mem_map.mpr ⟨a, ha, hf⟩
      · intro b hb
        rcases List.mem_map.mp hb with ⟨a, ha, hfa⟩
        by_cases hid : a.id = aid
        · right
          subst hid
          have hfa' : ({ a with date := nd, time := nt } : Appointment) = b := by
            simpa using hfa
          subst hfa'
          exact ⟨a, ha, rfl, rfl, rfl, rfl, rfl, rfl, rfl⟩
        · left
          have hfa' : a = b := by simpa [hid] using hfa
          subst hfa'
          exact ⟨hid, ha⟩
  · rw [if_neg h]
    dsimp only
    simp only [List.any_eq_true, beq_iff_eq] at h
    push_neg at h
    refine ⟨⟨fun _ => h, fun _ => rfl⟩, fun _ => rfl, ?_⟩
    intro hcon; cases hcon

/-- Witness for C9: updating a stored cancelled appointment succeeds and
rewrites only its date and time. -/
theorem C9_witness :
    (update_appointment exStorePast 3 "2031-05-05" "11:30").1 = true ∧
    ({ exApptPast with date := "2031-05-05", time := "11:30" } : Appointment) ∈
      (update_appointment exStorePast 3 "2031-05-05" "11:30").2.appointments ∧
    (update_appointment exStorePast 99 "2031-05-05" "11:30").1 = false := by
  have h := C9_update_appointment exStorePast 3 "2031-05-05" "11:30"
  have h99 := C9_update_appointment exStorePast 99 "2031-05-05" "11:30"
  refine ⟨by decide, ?_, h99.1.mpr (by decide)⟩
  exact (h.2.2 (by decide)).2.2.2.2.1 exApptPast (by decide) (by decide)

/-- C10: the guard `'apt_date' in locals()` never holds (no variable of
that name is ever bound in `get_all_appointments`), so every returned row
reports `is_expired = false`; with `include_expired = true` even rows
whose `date+time` lies in the past are included yet still reported as not
expired. -/
theorem C10_is_expired_always_false (st : DataStore) (include_expired : Bool)
    (now : PyDateTime) :
    getAllAppointmentsLocals.contains "apt_date" = false ∧
    (∀ v ∈ get_all_appointments st include_expired now, v.is_expired = false) ∧
    (∀ a ∈ st.appointments, a.status ≠ "cancelled" →
      ∃ v ∈ get_all_appointments st true now, v.id = a.id ∧ v.is_expired = false) := by
  refine ⟨by decide, ?_, ?_⟩
  · intro v hv
    unfold get_all_appointments at hv
    rcases List.mem_filterMap.mp hv with ⟨a, ha, hfa⟩
    dsimp only at hfa
    by_cases hc : (a.status == "cancelled") = true
    · rw [if_pos hc] at hfa
      cases hfa
    · rw [if_neg hc] at hfa
      split at hfa
      · cases hfa
      · simp only [Option.some.injEq] at hfa
        rw [← hfa]
        have hcn : getAllAppointmentsLocals.contains "apt_date" = false := by decide
        simp only [hcn, Bool.false_eq_true, if_false]
  · intro a ha hnc
    have hc : (a.status == "cancelled") = false := by simpa using hnc
    have hcontains : getAllAppointmentsLocals.contains "apt_date" = false := by decide
    unfold get_all_appointments
    refine ⟨{ id := a.id, patient_id := a.patient_id, doctor_id := a.doctor_id,
              date := a.date, time := a.time, status := a.status,
              patient_name := patientNameOf st a.patient_id,
              doctor_name := doctorNameOf st a.doctor_id,
              specialty := doctorSpecialtyOf st a.doctor_id,
              is_expired := false },
            List.mem_filterMap.mpr ⟨a, ha, ?_⟩, rfl, rfl⟩
    dsimp only
    rw [hc, hcontains]
    have hskip : (match parseDT a.date a.time with
        | some aptDT => dtLtB aptDT now && !true
        | none => false) = false := by
      cases parseDT a.date a.time <;> simp
    simp [hskip]
    cases parseDT a.date a.time <;> rfl

/-- Witness for C10: a store whose only appointment lies strictly in the
past (08:00 on `exNow`'s day) still yields a row with
`is_expired = false` when expired rows are requested. -/
theorem C10_witness :
    ∃ v ∈ get_all_appointments exStoreToday true exNow, v.id = 5 ∧ v.is_expired = false := by
  have h := C10_is_expired_always_false exStoreToday true exNow
  exact h.2.2 ⟨5, "PAB1234", 1, "2026-10-12", "08:00", "scheduled"⟩ (by decide) (by decide)

/-- C3: `cleanup_expired_appointments` hard-deletes exactly the stored
appointments whose `date+time` parses and is strictly before `now` —
regardless of status — reports their records, ids and count consistently,
and is idempotent: an immediate second call (same `now`) removes nothing
and leaves the store unchanged. -/
theorem C3_cleanup (st : DataStore) (now : PyDateTime) :
    (∀ a ∈ st.appointments, cleanupExpired now a = true →
      a ∉ (cleanup_expired_appointments st now).2.appointments ∧
      a.id ∈ (cleanup_expired_appointments st now).1.removed_appointment_ids) ∧
    (∀ a ∈ st.appointments, cleanupExpired now a = false →
      a ∈ (cleanup_expired_appointments st now).2.appointments) ∧
    (∀ b ∈ (cleanup_expired_appointments st now).2.appointments,
      b ∈ st.appointments ∧ cleanupExpired now b = false) ∧
    (cleanup_expired_appointments st now).1.expired_count =
      (cleanup_expired_appointments st now).1.removed_appointment_ids.length ∧
    (cleanup_expired_appointments st now).1.expired_count =
      (cleanup_expired_appointments st now).1.expired_appointments.length ∧
    (cleanup_expired_appointments st now).1.expired_count =
      (st.appointments.filter (cleanupExpired now)).length ∧
    (cleanup_expired_appointments (cleanup_expired_appointments st now).2 now).1.expired_count
      = 0 ∧
    (cleanup_expired_appointments (cleanup_expired_appointments st now).2 now).2 =
      (cleanup_expired_appointments st now).2 := by
  unfold cleanup_expired_appointments
  dsimp only
  refine ⟨?_, ?_, ?_, by simp, by simp, rfl, ?_, ?_⟩
  · intro a ha hexp
    constructor
    · intro hmem
      have := (List.mem_filter.mp hmem).2
      rw [hexp] at this
      cases this
    · exact List.mem_map_of_mem (fun x => x.id) (List.mem_filter.mpr ⟨ha, hexp⟩)
  · intro a ha hexp
    exact List.mem_filter.mpr ⟨ha, by rw [hexp]; rfl⟩
  · intro b hb
    have h := List.mem_filter.mp hb
    exact ⟨h.1, by simpa using h.2⟩
  · have : (st.appointments.filter (fun a => !cleanupExpired now a)).filter
        (cleanupExpired now) = [] := by
      rw [List.filter_filter]
      apply List.filter_eq_nil_iff.mpr
      intro a _
      simp [Bool.and_comm]
    rw [this]
    rfl
  · have : (st.appointments.filter (fun a => !cleanupExpired now a)).filter
        (fun a => !cleanupExpired now a) =
      st.appointments.filter (fun a => !cleanupExpired now a) := by
      apply List.filter_eq_self.mpr
      intro a ha
      exact (List.mem_filter.mp ha).2
    rw [this]

/-- Witness for C3: the past cancelled appointment is hard-deleted (status
notwithstanding), the future one is kept, and a second immediate cleanup
finds nothing. -/
theorem C3_witness :
    exApptPast ∉ (cleanup_expired_appointments exStorePast exNow).2.appointments ∧
    3 ∈ (cleanup_expired_appointments exStorePast exNow).1.removed_appointment_ids ∧
    exAppt1 ∈ (cleanup_expired_appointments exStorePast exNow).2.appointments ∧
    (cleanup_expired_appointments
      (cleanup_expired_appointments exStorePast exNow).2 exNow).1.expired_count = 0 := by
  have h := C3_cleanup exStorePast exNow
  exact ⟨(h.1 exApptPast (by decide) (by decide)).1,
         (h.1 exApptPast (by decide) (by decide)).2,
         h.2.1 exAppt1 (by decide) (by decide),
         h.2.2.2.2.2.2.1⟩

/-- C4: the two expiry classifications differ as claimed: `get_stats`
compares the date alone against today, so a scheduled appointment dated
today is classified active no matter its time, while
`cleanup_expired_appointments` compares the full `date+time` against the
wall clock and removes that same appointment when its time of day has
passed. -/
theorem C4_two_expiry_definitions (st : DataStore) (now : PyDateTime) (a : Appointment)
    (ha : a ∈ st.appointments) (hs : a.status = "scheduled")
    (hd : parseDate a.date = some now.date)
    (hh mm : Nat) (ht : parseTimeHM a.time = some (hh, mm))
    (hlt : hh * 60 + mm < now.hour * 60 + now.minute) :
    statsDateExpired now.date a = false ∧
    a ∈ statsActiveList st now.date ∧
    a ∉ statsExpiredList st now.date ∧
    0 < (get_stats st now.date).active_appointments ∧
    cleanupExpired now a = true ∧
    a.id ∈ (cleanup_expired_appointments st now).1.removed_appointment_ids ∧
    a ∉ (cleanup_expired_appointments st now).2.appointments := by
  have hsde : statsDateExpired now.date a = false := by
    unfold statsDateExpired
    rw [hd]
    simp [dateLtB]
  have hce : cleanupExpired now a = true := by
    unfold cleanupExpired parseDT
    rw [hd, ht]
    dsimp only
    unfold dtLtB dtKey
    simp only [decide_eq_true_eq]
    omega
  have hact : a ∈ statsActiveList st now.date := by
    unfold statsActiveList
    exact List.mem_filter.mpr ⟨ha, by simp [hs, hsde]⟩
  refine ⟨hsde, hact, ?_, ?_, hce, ?_, ?_⟩
  · intro hmem
    unfold statsExpiredList at hmem
    have h2 := (List.mem_filter.mp hmem).2
    rw [hsde] at h2
    simp at h2
  · show 0 < (statsActiveList st now.date).length
    exact List.length_pos_of_mem hact
  · show a.id ∈ (st.appointments.filter (cleanupExpired now)).map (fun x => x.id)
    exact List.mem_map_of_mem (fun x => x.id) (List.mem_filter.mpr ⟨ha, hce⟩)
  · intro hmem
    have h2 := (List.mem_filter.mp hmem).2
    rw [hce] at h2
    cases h2

/-- Witness for C4: the 08:00 appointment on `exNow`'s day is counted
active by the stats view yet removed by cleanup at noon. -/
theorem C4_witness :
    (⟨5, "PAB1234", 1, "2026-10-12", "08:00", "scheduled"⟩ : Appointment) ∈
      statsActiveList exStoreToday exNow.date ∧
    5 ∈ (cleanup_expired_appointments exStoreToday exNow).1.removed_appointment_ids := by
  have h := C4_two_expiry_definitions exStoreToday exNow
    ⟨5, "PAB1234", 1, "2026-10-12", "08:00", "scheduled"⟩
    (by decide) rfl (by decide) 8 0 (by decide) (by decide)
  exact ⟨h.2.1, h.2.2.2.2.2.1⟩

/-- C7: a booking request whose time field is `"99 PM"` fails with the
unparseable-time outcome — the time normalizer yields the failure signal
because no 0-23 / 0-59 reading of `"99 PM"` exists — no appointment is
created, and the store (hence `get_stats`) is unchanged. -/
theorem C7_unparseable_time (st : DataStore) (today : PyDate) (info : BookingInfo)
    (pid : String) (p : Patient) (dq : String) (doc : Doctor) (pd : String)
    (h1 : truthyOpt info.patient_id = some pid)
    (h2 : get_patient_by_id st pid = some p)
    (h3 : pyOr info.doctor_name info.specialty = some dq)
    (h4 : find_doctor_by_name_or_specialty st dq = some doc)
    (h5 : schedParseDate today info.date = some pd)
    (h6 : info.time = some "99 PM") :
    schedParseTime (some "99 PM") = none ∧
    execute_booking st today info = (.unparseableTime (some "99 PM"), st) ∧
    (BookResult.unparseableTime (some "99 PM")).success = false ∧
    ∀ t : PyDate, get_stats (execute_booking st today info).2 t = get_stats st t := by
  have hpt : schedParseTime (some "99 PM") = none := by decide
  have hmain : execute_booking st today info = (.unparseableTime (some "99 PM"), st) := by
    simp only [execute_booking, h1, h2, h3, h4, h5, h6, hpt]
  exact ⟨hpt, hmain, rfl, fun t => by rw [hmain]⟩

/-- Witness for C7 at the spec's scenario: patient `PAB1234`, Dr. Adams,
a valid ISO date and the time phrase `"99 PM"`. -/
theorem C7_witness :
    execute_booking exStore0 exToday
      ⟨some "PAB1234", some "Dr. Adams", none, some "2030-01-15", some "99 PM"⟩ =
      (.unparseableTime (some "99 PM"), exStore0) := by
  have h := C7_unparseable_time exStore0 exToday
    ⟨some "PAB1234", some "Dr. Adams", none, some "2030-01-15", some "99 PM"⟩
    "PAB1234" exPatient "Dr. Adams" exDoctor "2030-01-15"
    (by decide) (by decide) (by decide) (by decide) (by decide) rfl
  exact h.2.1

/-- C5: when the patient has more than one future non-cancelled
appointment and the cancel request carries no explicit date, nothing is
cancelled: the worker returns the confirmation prompt naming the soonest
future appointment (minimal date among them) and the store is returned
unchanged. -/
theorem C5_cancel_ambiguous (st : DataStore) (today : PyDate) (info : CancelInfo)
    (pid : String) (p : Patient) (tgt : Appointment) (doc : Doctor)
    (h1 : truthyOpt info.patient_id = some pid)
    (h2 : get_patient_by_id st pid = some p)
    (h3 : truthyOpt (pyOr info.date info.appointment_date) = none)
    (h4 : (sortByDate (futureAppointments (get_patient_appointments st pid)
            (formatDateISO today))).head? = some tgt)
    (h5 : 1 < (futureAppointments (get_patient_appointments st pid)
            (formatDateISO today)).length)
    (h6 : get_doctor_by_id st tgt.doctor_id = some doc) :
    cancel_appointment st today info = (.confirmCancel doc.name tgt.date tgt.time, st) ∧
    (CancelResult.confirmCancel doc.name tgt.date tgt.time).success = false ∧
    tgt ∈ futureAppointments (get_patient_appointments st pid) (formatDateISO today) ∧
    ∀ b ∈ futureAppointments (get_patient_appointments st pid) (formatDateISO today),
      strLeB tgt.date b.date = true := by
  have hloc : locateTarget (get_patient_appointments st pid) today
      (pyOr info.date info.appointment_date) = some tgt := by
    simp only [locateTarget, h3]
    exact h4
  have hmain : cancel_appointment st today info =
      (.confirmCancel doc.name tgt.date tgt.time, st) := by
    simp only [cancel_appointment, h1, h2, hloc, h3, h6, h5, beq_self_eq_true,
      Bool.true_and, decide_eq_true_eq, if_true]
  refine ⟨hmain, rfl, mem_sortByDate.mp (headMem h4), sortByDate_head_min h4⟩

/-- Witness for C5: two future appointments, no date given — only the
confirmation prompt for the sooner one comes back, the store untouched. -/
theorem C5_witness :
    cancel_appointment exStore2 exToday ⟨some "PAB1234", none, none⟩ =
      (.confirmCancel "Dr. Adams" "2030-01-01" "09:00", exStore2) := by
  have h := C5_cancel_ambiguous exStore2 exToday ⟨some "PAB1234", none, none⟩
    "PAB1234" exPatient exAppt1 exDoctor
    rfl (by decide) rfl (by decide) (by decide) (by decide)
  exact h.1

theorem delete_appointment_patients (st : DataStore) (aid : Nat) :
    (delete_appointment st aid).2.patients = st.patients := by
  unfold delete_appointment
  split <;> rfl

theorem get_patient_by_id_congr {st st' : DataStore} (pid : String)
    (h : st'.patients = st.patients) :
    get_patient_by_id st' pid = get_patient_by_id st pid := by
  unfold get_patient_by_id
  rw [h]

/-- C6: every successful cancellation enforces the delete-patient
precondition: the patient record is hard-deleted exactly when no
non-cancelled appointment of that patient remains afterwards, and the
patient record survives whenever one remains. -/
theorem C6_cancel_cascade (st : DataStore) (today : PyDate) (info : CancelInfo)
    (pname dname d t : String) (removed : Bool) (stOut : DataStore)
    (h : cancel_appointment st today info = (.cancelled pname dname d t removed, stOut)) :
    ∃ pid p, truthyOpt info.patient_id = some pid ∧
      get_patient_by_id st pid = some p ∧ p.id = pid ∧
      (removed = true ↔
        stOut.appointments.filter
          (fun a => a.patient_id == pid && a.status != "cancelled") = []) ∧
      (removed = true → ∀ q ∈ stOut.patients, q.id ≠ pid) ∧
      (removed = false → p ∈ stOut.patients) := by
  unfold cancel_appointment at h
  dsimp only at h
  split at h
  · simp at h
  rename_i pid hpid
  split at h
  · simp at h
  rename_i p hp
  split at h
  · simp at h
  rename_i tgt htgt
  split at h
  · split at h
    · simp at h
    · simp at h
  · split at h
    case isFalse => simp at h
    case isTrue hdel =>
      split at h
      · simp at h
      rename_i doc hdoc
      simp only [Prod.mk.injEq, CancelResult.cancelled.injEq] at h
      obtain ⟨⟨hpn, hdn, hd, ht, hrm⟩, hst⟩ := h
      obtain ⟨hkey, hpmem⟩ := get_patient_by_id_key hp
      refine ⟨pid, p, hpid, hp, hkey, ?_⟩
      have hpats : (delete_appointment st tgt.id).2.patients = st.patients :=
        delete_appointment_patients st tgt.id
      have hlook : get_patient_by_id (delete_appointment st tgt.id).2 pid = some p := by
        rw [get_patient_by_id_congr pid hpats]
        exact hp
      have hrem_eq : get_patient_appointments (delete_appointment st tgt.id).2 pid =
          (delete_appointment st tgt.id).2.appointments.filter
            (fun a => a.patient_id == pid && a.status != "cancelled") := by
        unfold get_patient_appointments
        rw [hlook]
        dsimp only
        rw [hkey]
      by_cases hre : (get_patient_appointments (delete_appointment st tgt.id).2 pid).isEmpty
        = true
      · rw [if_pos hre] at hrm hst
        have hany : ((delete_appointment st tgt.id).2.patients.any
            (fun q => q.id == pid)) = true := by
          rw [hpats]
          exact List.any_eq_true.mpr ⟨p, hpmem, by simp [hkey]⟩
        unfold delete_patient at hrm hst
        rw [if_pos hany] at hrm hst
        dsimp only at hrm hst
        have hremoved : removed = true := hrm.symm
        have hstOut : stOut = { (delete_appointment st tgt.id).2 with
            patients := (delete_appointment st tgt.id).2.patients.filter
              (fun q => !(q.id == pid)) } := hst.symm
        refine ⟨?_, ?_, ?_⟩
        · rw [hremoved, hstOut]
          simp only [true_iff]
          rw [List.isEmpty_iff] at hre
          rw [hrem_eq] at hre
          exact hre
        · intro _ q hq
          rw [hstOut] at hq
          have h2 := (List.mem_filter.mp hq).2
          intro hcon
          rw [hcon] at h2
          simp at h2
        · intro hcon
          rw [hremoved] at hcon
          cases hcon
      · rw [if_neg hre] at hrm hst
        dsimp only at hrm hst
        have hremoved : removed = false := hrm.symm
        have hstOut : stOut = (delete_appointment st tgt.id).2 := hst.symm
        refine ⟨?_, ?_, ?_⟩
        · rw [hremoved, hstOut]
          constructor
          · intro hcon; cases hcon
          · intro hnil
            exfalso
            rw [← hrem_eq] at hnil
            rw [List.isEmpty_iff] at hre
            exact hre hnil
        · intro hcon
          rw [hremoved] at hcon
          cases hcon
        · intro _
          rw [hstOut, hpats]
          exact hpmem

/-- Witness for C6: cancelling the patient's only appointment soft-deletes
it and cascade-deletes the now appointment-less patient record. -/
theorem C6_witness :
    ∃ pid p, truthyOpt (some "PAB1234") = some pid ∧
      get_patient_by_id exStore1 pid = some p ∧ p.id = pid ∧
      ((true : Bool) = true ↔ (DataStore.mk [] [exDoctor]
          [{ exAppt1 with status := "cancelled" }] 2).appointments.filter
          (fun a => a.patient_id == pid && a.status != "cancelled") = []) ∧
      ((true : Bool) = true → ∀ q ∈ (DataStore.mk [] [exDoctor]
          [{ exAppt1 with status := "cancelled" }] 2).patients, q.id ≠ pid) ∧
      ((true : Bool) = false → p ∈ (DataStore.mk [] [exDoctor]
          [{ exAppt1 with status := "cancelled" }] 2).patients) :=
  C6_cancel_cascade exStore1 exToday ⟨some "PAB1234", none, none⟩
    "Alice" "Dr. Adams" "2030-01-01" "09:00" true
    (DataStore.mk [] [exDoctor] [{ exAppt1 with status := "cancelled" }] 2) (by decide)

/-- C2 counterexample: a patient with exactly one scheduled appointment
asks to reschedule it to its own current `(doctor, date, time)` slot; the
availability check counts the appointment being moved, so the call does
not succeed — it returns the slot-unavailable outcome and leaves the
store unchanged, contrary to the claimed exclusion. -/
theorem C2_counterexample :
    get_patient_appointments exStore1 "PAB1234" = [exAppt1] ∧
    exAppt1.status = "scheduled" ∧
    reschedule_appointment exStore1 exToday
      ⟨some "PAB1234", none, some "2030-01-01", none, some "09:00", none⟩ =
      (.slotUnavailable "Dr. Adams" "2030-01-01" "09:00", exStore1) ∧
    (RescheduleResult.slotUnavailable "Dr. Adams" "2030-01-01" "09:00").success = false := by
  exact ⟨by decide, rfl, by decide, rfl⟩

/-- C2 amended: the reschedule availability check does not exclude the
appointment being moved — any scheduled appointment occupying the new
slot, including the target itself, makes `is_slot_available` false, so
rescheduling a scheduled appointment onto its own current slot fails with
the slot-unavailable outcome and leaves the store unchanged. -/
theorem C2_amended_no_exclusion (st : DataStore) (today : PyDate) (info : RescheduleInfo)
    (pid : String) (p : Patient) (a : Appointment) (doc : Doctor) (nd0 nt0 : String)
    (h1 : truthyOpt info.patient_id = some pid)
    (h2 : get_patient_by_id st pid = some p)
    (h3 : locateTarget (get_patient_appointments st pid) today info.current_date = some a)
    (h4 : truthyOpt (pyOr info.date info.new_date) = some nd0)
    (h5 : truthyOpt (pyOr info.time info.new_time) = some nt0)
    (h6 : mgmtParseDate today (pyOr info.date info.new_date) = some a.date)
    (h7 : mgmtParseTime (pyOr info.time info.new_time) = some a.time)
    (h8 : a.status = "scheduled")
    (h9 : get_doctor_by_id st a.doctor_id = some doc) :
    is_slot_available st a.doctor_id a.date a.time = false ∧
    reschedule_appointment st today info = (.slotUnavailable doc.name a.date a.time, st) := by
  have hmem : a ∈ st.appointments :=
    get_patient_appointments_sub (locateTarget_mem h3)
  have hany : st.appointments.any (fun x =>
      x.doctor_id == a.doctor_id && x.date == a.date && x.time == a.time &&
        x.status == "scheduled") = true :=
    List.any_eq_true.mpr ⟨a, hmem, by simp [h8]⟩
  have hslot : is_slot_available st a.doctor_id a.date a.time = false := by
    simp [is_slot_available, hany]
  have hcond : (truthyOpt (pyOr info.date info.new_date) == none
      || truthyOpt (pyOr info.time info.new_time) == none) = false := by
    rw [h4, h5]
    rfl
  refine ⟨hslot, ?_⟩
  simp only [reschedule_appointment, h1, h2, h3, hcond, Bool.false_eq_true, if_false,
    h6, h7, hslot, Bool.not_false, if_true, h9]

/-- Witness for C2's amended theorem at the counterexample input. -/
theorem C2_witness :
    is_slot_available exStore1 1 "2030-01-01" "09:00" = false ∧
    reschedule_appointment exStore1 exToday
      ⟨some "PAB1234", none, some "2030-01-01", none, some "09:00", none⟩ =
      (.slotUnavailable "Dr. Adams" "2030-01-01" "09:00", exStore1) :=
  C2_amended_no_exclusion exStore1 exToday
    ⟨some "PAB1234", none, some "2030-01-01", none, some "09:00", none⟩
    "PAB1234" exPatient exAppt1 exDoctor "2030-01-01" "09:00"
    rfl (by decide) (by decide) rfl rfl (by decide) (by decide) rfl (by decide)

/-- C1 counterexample: after a successful booking the slot is taken, but
moving the appointment with `update_appointment` — neither a cancellation
nor a deletion, its status stays `scheduled` — frees the original triple,
so availability does not stay false until cancellation or deletion. -/
theorem C1_counterexample :
    create_appointment exStore0 "PAB1234" 1 "2030-01-01" "09:00" = some (1, exStore1) ∧
    is_slot_available exStore1 1 "2030-01-01" "09:00" = false ∧
    (update_appointment exStore1 1 "2030-01-02" "09:00").1 = true ∧
    (update_appointment exStore1 1 "2030-01-02" "09:00").2.appointments =
      [{ exAppt1 with date := "2030-01-02" }] ∧
    is_slot_available (update_appointment exStore1 1 "2030-01-02" "09:00").2
      1 "2030-01-01" "09:00" = true := by
  exact ⟨by decide, by decide, by decide, by decide, by decide⟩

/-- C1 amended: `is_slot_available` is true iff no scheduled appointment
matches the exact triple; a successful `create_appointment` makes its
triple unavailable; and the triple stays unavailable under every store
operation that neither cancels nor moves that appointment nor removes it
through cleanup — i.e. until it is cancelled, deleted, or rescheduled
away. -/
theorem C1_amended_slot_availability :
    (∀ (st : DataStore) (did : Nat) (d t : String),
      is_slot_available st did d t = true ↔
        ∀ a ∈ st.appointments,
          ¬(a.doctor_id = did ∧ a.date = d ∧ a.time = t ∧ a.status = "scheduled")) ∧
    (∀ (st : DataStore) (pid : String) (did : Nat) (d t : String) (r : Nat × DataStore),
      create_appointment st pid did d t = some r →
      is_slot_available r.2 did d t = false) ∧
    (∀ (st : DataStore) (op : StoreOp) (a : Appointment),
      a ∈ st.appointments → a.status = "scheduled" → opLeavesAppt op a →
      is_slot_available (applyOp st op) a.doctor_id a.date a.time = false) := by
  refine ⟨?_, ?_, ?_⟩
  · intro st did d t
    simp only [is_slot_available, Bool.not_eq_true', List.any_eq_false, Bool.and_eq_true,
      beq_iff_eq]
    constructor
    · intro h a ha
      have h2 := h a ha
      tauto
    · intro h a ha
      have h2 := h a ha
      tauto
  · intro st pid did d t r hc
    unfold create_appointment at hc
    split at hc
    · cases hc
    · simp only [Option.some.injEq] at hc
      rw [← hc]
      simp [is_slot_available, List.any_append]
  · intro st op a hmem hsched hleave
    have hsurv : a ∈ (applyOp st op).appointments := by
      cases op with
      | createAppt pid did d t =>
        simp only [applyOp]
        cases hc : create_appointment st pid did d t with
        | none => exact hmem
        | some r =>
          obtain ⟨aid0, st1⟩ := r
          dsimp only
          unfold create_appointment at hc
          split at hc
          · cases hc
          · simp only [Option.some.injEq, Prod.mk.injEq] at hc
            rw [← hc.2]
            exact List.mem_append_left _ hmem
      | updateAppt aid nd nt =>
        simp only [opLeavesAppt] at hleave
        simp only [applyOp]
        unfold update_appointment
        split
        · dsimp only
          refine List.mem_map.mpr ⟨a, hmem, ?_⟩
          rw [if_neg]
          simp only [beq_iff_eq]
          exact fun hcon => hleave hcon.symm
        · exact hmem
      | cancelAppt aid =>
        simp only [opLeavesAppt] at hleave
        simp only [applyOp]
        unfold delete_appointment
        split
        · dsimp only
          refine List.mem_map.mpr ⟨a, hmem, ?_⟩
          rw [if_neg]
          simp only [beq_iff_eq]
          exact fun hcon => hleave hcon.symm
        · exact hmem
      | removePatient pid =>
        simp only [applyOp]
        unfold delete_patient
        split
        · exact hmem
        · exact hmem
      | cleanup now =>
        simp only [opLeavesAppt] at hleave
        simp only [applyOp]
        unfold cleanup_expired_appointments
        dsimp only
        refine List.mem_filter.mpr ⟨hmem, ?_⟩
        rw [hleave]
        rfl
    have hany : (applyOp st op).appointments.any (fun x =>
        x.doctor_id == a.doctor_id && x.date == a.date && x.time == a.time &&
          x.status == "scheduled") = true :=
      List.any_eq_true.mpr ⟨a, hsurv, by simp [hsched]⟩
    simp [is_slot_available, hany]

/-- Witness for C1's amended theorem: the booked slot is unavailable and
stays unavailable under an unrelated operation. -/
theorem C1_witness :
    is_slot_available exStore1 1 "2030-01-01" "09:00" = false ∧
    is_slot_available (applyOp exStore1 (.removePatient "PAB1234"))
      1 "2030-01-01" "09:00" = false := by
  have h2 := C1_amended_slot_availability.2.1 exStore0 "PAB1234" 1 "2030-01-01" "09:00"
    (1, exStore1) (by decide)
  have h3 := C1_amended_slot_availability.2.2 exStore1 (.removePatient "PAB1234") exAppt1
    (by decide) rfl trivial
  exact ⟨h2, h3⟩
